import Mathlib

/-!
Shallow embedding of the kp-http server (src/main.rs): the request parser
(HttpRequest::parse), the response builder (HttpResponse), the route
dispatcher and the pure core of handle_client. Byte buffers are List Nat
(each element a byte value), strings decoded from them are List Char /
String. I/O (the TCP listener loop, timeouts, threads) is outside the
embedding; handle_client is modelled as the function from the bytes read
to the optional bytes written.
-/

/-- The Unicode replacement character U+FFFD, produced by the lossy decode. -/
def repl : Char := Char.ofNat 0xFFFD

/-- Is a byte a UTF-8 continuation byte (0x80..0xBF)? -/
def isCont (b : Nat) : Bool := 0x80 ≤ b && b ≤ 0xBF

/-- Embedding of Rust String.from_utf8_lossy: decode UTF-8, replacing each
maximal subpart of an ill-formed subsequence by U+FFFD (the behaviour of
Rust's lossy decoder). Total on arbitrary byte lists. -/
def utf8LossyDecode : List Nat → List Char
  | [] => []
  | b0 :: rest =>
    if b0 < 0x80 then Char.ofNat b0 :: utf8LossyDecode rest
    else if 0xC2 ≤ b0 && b0 ≤ 0xDF then
      match rest with
      | [] => [repl]
      | b1 :: rest2 =>
        if isCont b1 then
          Char.ofNat ((b0 % 0x20) * 0x40 + b1 % 0x40) :: utf8LossyDecode rest2
        else repl :: utf8LossyDecode (b1 :: rest2)
    else if 0xE0 ≤ b0 && b0 ≤ 0xEF then
      match rest with
      | [] => [repl]
      | b1 :: rest2 =>
        if (b0 == 0xE0 && (0xA0 ≤ b1 && b1 ≤ 0xBF)) ||
           (b0 == 0xED && (0x80 ≤ b1 && b1 ≤ 0x9F)) ||
           (b0 != 0xE0 && b0 != 0xED && isCont b1) then
          match rest2 with
          | [] => [repl]
          | b2 :: rest3 =>
            if isCont b2 then
              Char.ofNat ((b0 % 0x10) * 0x1000 + (b1 % 0x40) * 0x40 + b2 % 0x40) ::
                utf8LossyDecode rest3
            else repl :: utf8LossyDecode (b2 :: rest3)
        else repl :: utf8LossyDecode (b1 :: rest2)
    else if 0xF0 ≤ b0 && b0 ≤ 0xF4 then
      match rest with
      | [] => [repl]
      | b1 :: rest2 =>
        if (b0 == 0xF0 && (0x90 ≤ b1 && b1 ≤ 0xBF)) ||
           (b0 == 0xF4 && (0x80 ≤ b1 && b1 ≤ 0x8F)) ||
           (b0 != 0xF0 && b0 != 0xF4 && isCont b1) then
          match rest2 with
          | [] => [repl]
          | b2 :: rest3 =>
            if isCont b2 then
              match rest3 with
              | [] => [repl]
              | b3 :: rest4 =>
                if isCont b3 then
                  Char.ofNat ((b0 % 0x8) * 0x40000 + (b1 % 0x40) * 0x1000 +
                      (b2 % 0x40) * 0x40 + b3 % 0x40) :: utf8LossyDecode rest4
                else repl :: utf8LossyDecode (b3 :: rest4)
            else repl :: utf8LossyDecode (b2 :: rest3)
        else repl :: utf8LossyDecode (b1 :: rest2)
    else repl :: utf8LossyDecode rest

/-- UTF-8 encoding of a single code point, as a list of byte values
(Rust str::as_bytes on each char). -/
def utf8EncodeChar (c : Nat) : List Nat :=
  if c < 0x80 then [c]
  else if c < 0x800 then [0xC0 + c / 0x40, 0x80 + c % 0x40]
  else if c < 0x10000 then
    [0xE0 + c / 0x1000, 0x80 + (c / 0x40) % 0x40, 0x80 + c % 0x40]
  else
    [0xF0 + c / 0x40000, 0x80 + (c / 0x1000) % 0x40, 0x80 + (c / 0x40) % 0x40,
      0x80 + c % 0x40]

/-- UTF-8 bytes of a list of characters (Rust str::as_bytes). -/
def listBytes (l : List Char) : List Nat := l.flatMap (fun c => utf8EncodeChar c.toNat)

/-- UTF-8 bytes of a string (Rust str::as_bytes). -/
def strBytes (s : String) : List Nat := listBytes s.data

/-- Embedding of Rust str::split("\r\n"): split at each leftmost,
non-overlapping occurrence of CRLF. Always returns at least one piece. -/
def splitCRLF : List Char → List (List Char)
  | [] => [[]]
  | '\r' :: '\n' :: rest => [] :: splitCRLF rest
  | c :: rest =>
    match splitCRLF rest with
    | [] => [[c]]
    | l :: ls => (c :: l) :: ls

/-- The Unicode White_Space property, as used by Rust char::is_whitespace. -/
def isRustWhitespace (c : Char) : Bool :=
  c.toNat == 0x09 || c.toNat == 0x0A || c.toNat == 0x0B || c.toNat == 0x0C ||
  c.toNat == 0x0D || c.toNat == 0x20 || c.toNat == 0x85 || c.toNat == 0xA0 ||
  c.toNat == 0x1680 || (0x2000 ≤ c.toNat && c.toNat ≤ 0x200A) ||
  c.toNat == 0x2028 || c.toNat == 0x2029 || c.toNat == 0x202F ||
  c.toNat == 0x205F || c.toNat == 0x3000

/-- Accumulator worker for splitWhitespaceR; acc holds the current word
reversed. -/
def splitWsAux : List Char → List Char → List (List Char)
  | [], acc => if acc.isEmpty then [] else [acc.reverse]
  | c :: rest, acc =>
    if isRustWhitespace c then
      if acc.isEmpty then splitWsAux rest []
      else acc.reverse :: splitWsAux rest []
    else splitWsAux rest (c :: acc)

/-- Embedding of Rust str::split_whitespace: the maximal non-whitespace
runs, in order, with no empty pieces. -/
def splitWhitespaceR (s : List Char) : List (List Char) := splitWsAux s []

/-- Embedding of Rust str::split_once(": "): split at the first occurrence
of the two-character separator ": ", or none when it does not occur. -/
def splitOnce : List Char → Option (List Char × List Char)
  | [] => none
  | c :: rest =>
    if c = ':' ∧ rest.head? = some ' ' then some ([], rest.tail)
    else (splitOnce rest).map (fun p => (c :: p.1, p.2))

/-- The parsed request (struct HttpRequest in src/main.rs): method, path,
ordered header pairs, body bytes. -/
structure HttpRequest where
  method : String
  path : String
  headers : List (String × String)
  body : List Nat
  deriving DecidableEq

/-- The header-consuming while loop of HttpRequest::parse, run on the lines
after line 0: returns the collected header pairs and the number of lines
consumed (the loop stops at the first empty line or at end of input; lines
without the ": " separator are skipped but still counted). -/
def headerLoop : List (List Char) → List (String × String) × Nat
  | [] => ([], 0)
  | l :: rest =>
    if l.isEmpty then ([], 0)
    else
      match splitOnce l with
      | some p =>
        ((String.mk p.1, String.mk p.2) :: (headerLoop rest).1, (headerLoop rest).2 + 1)
      | none => ((headerLoop rest).1, (headerLoop rest).2 + 1)

/-- The lines of the lossily decoded request buffer (steps 1-2 of
HttpRequest::parse). -/
def rustLines (raw : List Nat) : List (List Char) := splitCRLF (utf8LossyDecode raw)

/-- The whitespace-split tokens of line 0 of the request
(request_line in HttpRequest::parse). -/
def requestTokens (raw : List Nat) : List (List Char) :=
  splitWhitespaceR ((rustLines raw).headD [])

/-- Embedding of HttpRequest::parse (src/main.rs lines 21-61): lossy-decode,
split on CRLF, fail on zero lines or fewer than two tokens on line 0,
collect headers from line 1 until an empty line, then take the line after
the header terminator as the body when it exists. -/
def HttpRequest.parse (raw : List Nat) : Option HttpRequest :=
  let lines := splitCRLF (utf8LossyDecode raw)
  if lines.isEmpty then none
  else
    let request_line := splitWhitespaceR (lines.headD [])
    if request_line.length < 2 then none
    else
      let i := 1 + (headerLoop (lines.drop 1)).2
      some
        { method := String.mk (request_line.headD [])
          path := String.mk (request_line.getD 1 [])
          headers := (headerLoop (lines.drop 1)).1
          body :=
            if i < lines.length - 1 then listBytes (lines.getD (i + 1) [])
            else [] }

/-- Status line constant HTTP_OK of src/main.rs. -/
def HTTP_OK : String := "HTTP/1.1 200 OK\r\n"

/-- Status line constant HTTP_NOT_FOUND of src/main.rs. -/
def HTTP_NOT_FOUND : String := "HTTP/1.1 404 Not Found\r\n"

/-- Status line constant HTTP_METHOD_NOT_ALLOWED of src/main.rs. -/
def HTTP_METHOD_NOT_ALLOWED : String := "HTTP/1.1 405 Method Not Allowed\r\n"

/-- The response builder state (struct HttpResponse in src/main.rs). -/
structure HttpResponse where
  status_line : String
  headers : List (String × String)
  body : List Nat
  deriving DecidableEq

/-- HttpResponse::new. -/
def HttpResponse.new (status_line : String) : HttpResponse :=
  { status_line := status_line, headers := [], body := [] }

/-- HttpResponse::with_header: push one (key, value) pair. -/
def HttpResponse.with_header (r : HttpResponse) (key value : String) : HttpResponse :=
  { r with headers := r.headers ++ [(key, value)] }

/-- HttpResponse::with_body: replace the body. -/
def HttpResponse.with_body (r : HttpResponse) (body : List Nat) : HttpResponse :=
  { r with body := body }

/-- HttpResponse::build (src/main.rs lines 90-111): status line bytes, each
header as "Key: Value\r\n" in attachment order (a fold over the header
vector, mirroring the extend_from_slice loop), the computed
"Content-Length: n\r\n", a blank line, then the body bytes. -/
def HttpResponse.build (r : HttpResponse) : List Nat :=
  let response : List Nat := []
  let response := response ++ strBytes r.status_line
  let response :=
    r.headers.foldl
      (fun acc kv => acc ++ strBytes (kv.1 ++ ": " ++ kv.2 ++ "\r\n")) response
  let response :=
    response ++ strBytes ("Content-Length: " ++ Nat.repr r.body.length ++ "\r\n")
  let response := response ++ strBytes "\r\n"
  response ++ r.body

/-- The authorization scan of handle_client (src/main.rs lines 121-122):
any header pair equal to ("Authorization", "Bearer secret-token"). -/
def is_authenticated (req : HttpRequest) : Bool :=
  req.headers.any (fun kv => kv.1 == "Authorization" && kv.2 == "Bearer secret-token")

/-- The route dispatch match of handle_client (src/main.rs lines 124-157):
first-match-wins on the exact (method, path) literals, with the bearer-token
check on POST /echo. -/
def dispatch (req : HttpRequest) : HttpResponse :=
  if req.method = "GET" ∧ req.path = "/" then
    ((HttpResponse.new HTTP_OK).with_header "Content-Type" "text/html").with_body
      (strBytes "<h1>Welcome to Rust HTTP Server!</h1>")
  else if req.method = "POST" ∧ req.path = "/echo" then
    if !is_authenticated req then
      ((HttpResponse.new "HTTP/1.1 401 Unauthorized\r\n").with_header
          "Content-Type" "text/plain").with_body (strBytes "Unauthorized")
    else
      ((HttpResponse.new HTTP_OK).with_header
          "Content-Type" "application/json").with_body req.body
  else if req.method = "GET" ∧ req.path = "/health" then
    ((HttpResponse.new HTTP_OK).with_header
        "Content-Type" "application/json").with_body
      (strBytes "\x7b\"status\": \"healthy\"\x7d")
  else if req.method = "GET" then
    ((HttpResponse.new HTTP_NOT_FOUND).with_header
        "Content-Type" "text/plain").with_body (strBytes "404 - Not Found")
  else
    ((HttpResponse.new HTTP_METHOD_NOT_ALLOWED).with_header
        "Content-Type" "text/plain").with_body (strBytes "405 - Method Not Allowed")

/-- The pure core of handle_client (src/main.rs lines 114-167): from the
bytes read off the socket to the bytes written back, none when parsing
fails (silent drop, nothing is written). -/
def handle_client (raw : List Nat) : Option (List Nat) :=
  match HttpRequest.parse raw with
  | some request => some ((dispatch request).build)
  | none => none

/-- Index of the header block's terminator line: the first empty line at
index 1 or later, or the number of lines when the headers run to the end of
the input. -/
def headerEndIdx (lines : List (List Char)) : Nat :=
  1 + List.findIdx (fun l => l.isEmpty) (lines.drop 1)

/-- splitCRLF always returns at least one piece: every branch of its match
produces a cons cell. -/
theorem splitCRLF_ne_nil (s : List Char) : splitCRLF s ≠ [] := by
  unfold splitCRLF
  split
  · simp
  · simp
  · split <;> simp

/-- The line list of any raw buffer is nonempty. -/
theorem rustLines_ne_nil (raw : List Nat) : rustLines raw ≠ [] :=
  splitCRLF_ne_nil (utf8LossyDecode raw)

/-- Closed form of HttpRequest.parse: since the line list is never empty,
the zero-lines branch vanishes and parse is decided by the token count of
line 0. -/
theorem parse_eq (raw : List Nat) :
    HttpRequest.parse raw =
      if (requestTokens raw).length < 2 then none
      else
        some
          { method := String.mk ((requestTokens raw).headD [])
            path := String.mk ((requestTokens raw).getD 1 [])
            headers := (headerLoop ((rustLines raw).drop 1)).1
            body :=
              if 1 + (headerLoop ((rustLines raw).drop 1)).2 < (rustLines raw).length - 1 then
                listBytes ((rustLines raw).getD (1 + (headerLoop ((rustLines raw).drop 1)).2 + 1) [])
              else [] } := by
  have h := splitCRLF_ne_nil (utf8LossyDecode raw)
  unfold HttpRequest.parse requestTokens rustLines
  simp only [List.isEmpty_eq_true, h, if_false]

/-- The count returned by the header loop is the number of leading
nonempty lines. -/
theorem headerLoop_snd (ls : List (List Char)) :
    (headerLoop ls).2 = (ls.takeWhile (fun l => !l.isEmpty)).length := by
  induction ls with
  | nil => rfl
  | cons l rest ih =>
    cases h : l.isEmpty
    · cases hs : splitOnce l <;>
        simp [headerLoop, h, hs, List.takeWhile_cons, ih]
    · simp [headerLoop, h, List.takeWhile_cons]

/-- The pairs returned by the header loop: the leading nonempty lines,
those with a ": " separator split at its first occurrence, in order. -/
theorem headerLoop_fst (ls : List (List Char)) :
    (headerLoop ls).1 =
      (ls.takeWhile (fun l => !l.isEmpty)).filterMap
        (fun l => (splitOnce l).map (fun p => (String.mk p.1, String.mk p.2))) := by
  induction ls with
  | nil => rfl
  | cons l rest ih =>
    cases h : l.isEmpty
    · cases hs : splitOnce l <;>
        simp [headerLoop, h, hs, List.takeWhile_cons, List.filterMap_cons, ih]
    · simp [headerLoop, h, List.takeWhile_cons]

/-- findIdx is the length of the longest prefix on which the predicate is
false. -/
theorem findIdx_eq_length_takeWhile (p : α → Bool) (l : List α) :
    l.findIdx p = (l.takeWhile (fun a => !p a)).length := by
  induction l with
  | nil => simp
  | cons a l ih =>
    cases h : p a <;> simp [List.findIdx_cons, List.takeWhile_cons, h, ih]

/-- Accumulating byte pushes in a fold is appending the rendered pieces. -/
theorem foldl_append_eq_flatMap (f : α → List β) (l : List α) (init : List β) :
    l.foldl (fun acc x => acc ++ f x) init = init ++ l.flatMap f := by
  induction l generalizing init with
  | nil => simp
  | cons a l ih => simp [List.flatMap_cons, ih]

/-- The authorization scan succeeds exactly when the literal pair
("Authorization", "Bearer secret-token") occurs among the headers. -/
theorem is_authenticated_iff (req : HttpRequest) :
    is_authenticated req = true ↔
      ("Authorization", "Bearer secret-token") ∈ req.headers := by
  unfold is_authenticated
  rw [List.any_eq_true]
  constructor
  · rintro ⟨kv, hm, hkv⟩
    simp only [Bool.and_eq_true, beq_iff_eq] at hkv
    obtain ⟨h1, h2⟩ := hkv
    obtain ⟨k, v⟩ := kv
    simp only at h1 h2
    rw [h1, h2] at hm
    exact hm
  · intro hm
    exact ⟨_, hm, by simp⟩

/-- When splitOnce finds a split, the line is left ++ ": " ++ right and the
left part contains no earlier occurrence of the separator. -/
theorem splitOnce_some (l a b : List Char) (h : splitOnce l = some (a, b)) :
    l = a ++ ':' :: ' ' :: b ∧ ∀ x y : List Char, a ≠ x ++ ':' :: ' ' :: y := by
  induction l generalizing a b with
  | nil => simp [splitOnce] at h
  | cons c rest ih =>
    rw [splitOnce] at h
    by_cases hc : c = ':' ∧ rest.head? = some ' '
    · rw [if_pos hc] at h
      obtain ⟨hc1, hc2⟩ := hc
      obtain ⟨t, ht⟩ := List.head?_eq_some_iff.mp hc2
      simp only [Option.some.injEq, Prod.mk.injEq] at h
      obtain ⟨ha, hb⟩ := h
      subst ha hb hc1
      refine ⟨by simp [ht], ?_⟩
      intro x y hxy
      exact absurd hxy.symm (List.append_ne_nil_of_right_ne_nil x (by simp))
    · rw [if_neg hc] at h
      cases hs : splitOnce rest with
      | none => rw [hs] at h; simp at h
      | some p =>
        rw [hs] at h
        obtain ⟨a', b'⟩ := p
        simp only [Option.map_some', Option.some.injEq, Prod.mk.injEq] at h
        obtain ⟨ha, hb⟩ := h
        obtain ⟨hrest, hnocc⟩ := ih a' b' (by rw [hs, hb])
        subst ha
        constructor
        · simp [hrest, hb]
        · intro x y hxy
          cases x with
          | nil =>
            simp only [List.nil_append, List.cons.injEq] at hxy
            obtain ⟨hcc, ha'⟩ := hxy
            apply hc
            refine ⟨hcc, ?_⟩
            rw [hrest, ha']
            simp
          | cons d x' =>
            simp only [List.cons_append, List.cons.injEq] at hxy
            exact hnocc x' y hxy.2

/-- When splitOnce finds nothing, the separator ": " does not occur in the
line. -/
theorem splitOnce_none (l : List Char) (h : splitOnce l = none) :
    ∀ x y : List Char, l ≠ x ++ ':' :: ' ' :: y := by
  induction l with
  | nil => intro x y hxy; exact absurd hxy.symm (List.append_ne_nil_of_right_ne_nil x (by simp))
  | cons c rest ih =>
    rw [splitOnce] at h
    by_cases hc : c = ':' ∧ rest.head? = some ' '
    · rw [if_pos hc] at h; simp at h
    · rw [if_neg hc] at h
      cases hs : splitOnce rest with
      | some p => rw [hs] at h; simp at h
      | none =>
        intro x y hxy
        cases x with
        | nil =>
          simp only [List.nil_append, List.cons.injEq] at hxy
          exact hc ⟨hxy.1, by rw [hxy.2]; simp⟩
        | cons d x' =>
          simp only [List.cons_append, List.cons.injEq] at hxy
          exact ih hs x' y hxy.2

/-- Claim C1: for every parsed request the dispatcher's response matches the
routing table exactly: (GET, "/") gives 200 with text/html and the fixed
welcome HTML body, (GET, "/health") gives 200 with application/json and the
fixed health body, any other GET path gives 404 with text/plain, and every
pair whose method is not GET and which is not (POST, "/echo") gives 405 with
text/plain; matching is by exact literal method+path equality, first match
wins. -/
theorem c1_dispatch_table (req : HttpRequest) :
    (req.method = "GET" → req.path = "/" →
      dispatch req =
        { status_line := "HTTP/1.1 200 OK\r\n",
          headers := [("Content-Type", "text/html")],
          body := strBytes "<h1>Welcome to Rust HTTP Server!</h1>" }) ∧
    (req.method = "GET" → req.path = "/health" →
      dispatch req =
        { status_line := "HTTP/1.1 200 OK\r\n",
          headers := [("Content-Type", "application/json")],
          body := strBytes "\x7b\"status\": \"healthy\"\x7d" }) ∧
    (req.method = "GET" → req.path ≠ "/" → req.path ≠ "/health" →
      dispatch req =
        { status_line := "HTTP/1.1 404 Not Found\r\n",
          headers := [("Content-Type", "text/plain")],
          body := strBytes "404 - Not Found" }) ∧
    (req.method ≠ "GET" → ¬(req.method = "POST" ∧ req.path = "/echo") →
      dispatch req =
        { status_line := "HTTP/1.1 405 Method Not Allowed\r\n",
          headers := [("Content-Type", "text/plain")],
          body := strBytes "405 - Method Not Allowed" }) := by
  refine ⟨?_, ?_, ?_, ?_⟩
  · intro hm hp
    simp [dispatch, hm, hp, HttpResponse.new, HttpResponse.with_header,
      HttpResponse.with_body, HTTP_OK]
  · intro hm hp
    simp [dispatch, hm, hp, HttpResponse.new, HttpResponse.with_header,
      HttpResponse.with_body, HTTP_OK]
  · intro hm hp1 hp2
    simp [dispatch, hm, hp1, hp2, HttpResponse.new, HttpResponse.with_header,
      HttpResponse.with_body, HTTP_NOT_FOUND]
  · intro hm hpe
    simp [dispatch, hm, hpe, HttpResponse.new, HttpResponse.with_header,
      HttpResponse.with_body, HTTP_METHOD_NOT_ALLOWED]

/-- Witness for C1: the four table rows at concrete requests. -/
theorem c1_dispatch_table_witness :
    dispatch { method := "GET", path := "/", headers := [], body := [] } =
      { status_line := "HTTP/1.1 200 OK\r\n",
        headers := [("Content-Type", "text/html")],
        body := strBytes "<h1>Welcome to Rust HTTP Server!</h1>" } ∧
    dispatch { method := "GET", path := "/health", headers := [], body := [] } =
      { status_line := "HTTP/1.1 200 OK\r\n",
        headers := [("Content-Type", "application/json")],
        body := strBytes "\x7b\"status\": \"healthy\"\x7d" } ∧
    dispatch { method := "GET", path := "/foo", headers := [], body := [] } =
      { status_line := "HTTP/1.1 404 Not Found\r\n",
        headers := [("Content-Type", "text/plain")],
        body := strBytes "404 - Not Found" } ∧
    dispatch { method := "DELETE", path := "/", headers := [], body := [] } =
      { status_line := "HTTP/1.1 405 Method Not Allowed\r\n",
        headers := [("Content-Type", "text/plain")],
        body := strBytes "405 - Method Not Allowed" } :=
  ⟨(c1_dispatch_table _).1 rfl rfl,
   (c1_dispatch_table _).2.1 rfl rfl,
   (c1_dispatch_table _).2.2.1 rfl (by decide) (by decide),
   (c1_dispatch_table _).2.2.2 (by decide) (by decide)⟩

/-- Rendering the header vector by the fold of build equals appending the
headers rendered one by one. -/
theorem foldl_headers_eq (hs : List (String × String)) (init : List Nat) :
    hs.foldl (fun acc kv => acc ++ strBytes (kv.1 ++ ": " ++ kv.2 ++ "\r\n")) init =
      init ++ hs.flatMap (fun kv => strBytes (kv.1 ++ ": " ++ kv.2 ++ "\r\n")) := by
  induction hs generalizing init with
  | nil => simp
  | cons kv hs ih => simp [List.flatMap_cons, ih]

/-- Claim C2: for every builder state - any status line, any attached
headers (a caller-attached Content-Length included, undeduplicated: it
stays inside the rendered header block), and any body - build emits its own
Content-Length header whose value is the exact byte length of the body,
computed at build time. -/
theorem c2_build_content_length (s : String) (hs : List (String × String)) (b : List Nat) :
    ∃ pre : List Nat,
      HttpResponse.build { status_line := s, headers := hs, body := b } =
        pre ++ strBytes ("Content-Length: " ++ Nat.repr b.length ++ "\r\n") ++
          strBytes "\r\n" ++ b ∧
      pre = strBytes s ++
        hs.flatMap (fun kv => strBytes (kv.1 ++ ": " ++ kv.2 ++ "\r\n")) := by
  refine ⟨_, ?_, rfl⟩
  simp only [HttpResponse.build]
  rw [foldl_headers_eq]
  simp [List.append_assoc]

/-- Claim C7: build produces exactly the status line bytes, each attached
header as "Key: Value\r\n" in attachment order, the computed
"Content-Length: n\r\n", a blank line, then the raw body bytes - nothing
else. -/
theorem c7_build_serialization (r : HttpResponse) :
    r.build =
      strBytes r.status_line ++
        r.headers.flatMap (fun kv => strBytes (kv.1 ++ ": " ++ kv.2 ++ "\r\n")) ++
        strBytes ("Content-Length: " ++ Nat.repr r.body.length ++ "\r\n") ++
        strBytes "\r\n" ++ r.body := by
  simp only [HttpResponse.build]
  rw [foldl_headers_eq]
  simp [List.append_assoc]

/-- Claim C3: a raw buffer that parses to method POST, path /echo and
carries the exact header pair ("Authorization", "Bearer secret-token")
gets a 200 application/json response whose body is the request body
verbatim. -/
theorem c3_echo_roundtrip (raw : List Nat) (req : HttpRequest)
    (h : HttpRequest.parse raw = some req) (hm : req.method = "POST")
    (hp : req.path = "/echo")
    (ha : ("Authorization", "Bearer secret-token") ∈ req.headers) :
    dispatch req =
      { status_line := "HTTP/1.1 200 OK\r\n",
        headers := [("Content-Type", "application/json")],
        body := req.body } := by
  have hauth : is_authenticated req = true := (is_authenticated_iff req).mpr ha
  simp [dispatch, hm, hp, hauth, HttpResponse.new, HttpResponse.with_header,
    HttpResponse.with_body, HTTP_OK]

/-- Witness for C3: a concrete authorized POST /echo buffer with body
"hello" is echoed back verbatim. -/
theorem c3_echo_roundtrip_witness :
    dispatch
        { method := "POST", path := "/echo",
          headers := [("Authorization", "Bearer secret-token")],
          body := strBytes "hello" } =
      { status_line := "HTTP/1.1 200 OK\r\n",
        headers := [("Content-Type", "application/json")],
        body := strBytes "hello" } :=
  c3_echo_roundtrip
    (strBytes "POST /echo HTTP/1.1\r\nAuthorization: Bearer secret-token\r\n\r\nhello")
    { method := "POST", path := "/echo",
      headers := [("Authorization", "Bearer secret-token")],
      body := strBytes "hello" }
    (by decide) rfl rfl (by decide)

/-- Claim C4: on a parsed POST /echo request the response is 200 exactly
when some header pair equals ("Authorization", "Bearer secret-token");
otherwise it is the fixed 401 text/plain "Unauthorized" response,
regardless of the body. -/
theorem c4_echo_auth (req : HttpRequest) (hm : req.method = "POST")
    (hp : req.path = "/echo") :
    ((dispatch req).status_line = "HTTP/1.1 200 OK\r\n" ↔
      ("Authorization", "Bearer secret-token") ∈ req.headers) ∧
    (("Authorization", "Bearer secret-token") ∉ req.headers →
      dispatch req =
        { status_line := "HTTP/1.1 401 Unauthorized\r\n",
          headers := [("Content-Type", "text/plain")],
          body := strBytes "Unauthorized" }) := by
  have hiff := is_authenticated_iff req
  cases ha : is_authenticated req with
  | false =>
    rw [ha] at hiff
    have hmem : ("Authorization", "Bearer secret-token") ∉ req.headers := by
      intro hm2
      exact absurd (hiff.mpr hm2) (by simp)
    constructor
    · simp [dispatch, hm, hp, ha, HttpResponse.new, HttpResponse.with_header,
        HttpResponse.with_body, hmem]
    · intro _
      simp [dispatch, hm, hp, ha, HttpResponse.new, HttpResponse.with_header,
        HttpResponse.with_body]
  | true =>
    have hmem := hiff.mp ha
    constructor
    · simp [dispatch, hm, hp, ha, HttpResponse.new, HttpResponse.with_header,
        HttpResponse.with_body, HTTP_OK, hmem]
    · intro hn
      exact absurd hmem hn

/-- Witness for C4: a concrete POST /echo request with no Authorization
header gets the fixed 401 response. -/
theorem c4_echo_auth_witness :
    dispatch { method := "POST", path := "/echo", headers := [], body := strBytes "x" } =
      { status_line := "HTTP/1.1 401 Unauthorized\r\n",
        headers := [("Content-Type", "text/plain")],
        body := strBytes "Unauthorized" } :=
  (c4_echo_auth
      { method := "POST", path := "/echo", headers := [], body := strBytes "x" }
      rfl rfl).2 (by decide)

/-- Claim C5: for every successfully parsed buffer the body is exactly the
single line immediately following the header block's terminator line
(re-encoded as bytes), and empty when no line exists at that position - in
particular when the header lines run to the end of the buffer with no
trailing empty line; all further lines are ignored. -/
theorem c5_parse_body_line (raw : List Nat) (req : HttpRequest)
    (h : HttpRequest.parse raw = some req) :
    req.body =
      if headerEndIdx (rustLines raw) < (rustLines raw).length - 1 then
        listBytes ((rustLines raw).getD (headerEndIdx (rustLines raw) + 1) [])
      else [] := by
  rw [parse_eq] at h
  by_cases hlt : (requestTokens raw).length < 2
  · rw [if_pos hlt] at h
    exact absurd h (by simp)
  · rw [if_neg hlt] at h
    simp only [Option.some.injEq] at h
    subst h
    have hidx : headerEndIdx (rustLines raw) =
        1 + (headerLoop ((rustLines raw).drop 1)).2 := by
      rw [headerEndIdx, headerLoop_snd, findIdx_eq_length_takeWhile]
    rw [hidx]

/-- Witness for C5 at a concrete buffer whose body line "abc" is followed
by an ignored extra line. -/
theorem c5_parse_body_line_witness :
    ({ method := "GET", path := "/", headers := [("Host", "x")],
        body := strBytes "abc" } : HttpRequest).body =
      if headerEndIdx (rustLines (strBytes "GET / HTTP/1.1\r\nHost: x\r\n\r\nabc\r\nzzz")) <
          (rustLines (strBytes "GET / HTTP/1.1\r\nHost: x\r\n\r\nabc\r\nzzz")).length - 1 then
        listBytes
          ((rustLines (strBytes "GET / HTTP/1.1\r\nHost: x\r\n\r\nabc\r\nzzz")).getD
            (headerEndIdx (rustLines (strBytes "GET / HTTP/1.1\r\nHost: x\r\n\r\nabc\r\nzzz")) + 1) [])
      else [] :=
  c5_parse_body_line (strBytes "GET / HTTP/1.1\r\nHost: x\r\n\r\nabc\r\nzzz")
    { method := "GET", path := "/", headers := [("Host", "x")], body := strBytes "abc" }
    (by decide)

/-- Claim C6: parse fails exactly when the CRLF-split of the lossily
decoded text has zero lines or line 0 has fewer than two whitespace
tokens; on success the method is token 0 and the path is token 1, extra
tokens being ignored. -/
theorem c6_parse_request_line (raw : List Nat) :
    (HttpRequest.parse raw = none ↔
      (rustLines raw = [] ∨ (requestTokens raw).length < 2)) ∧
    ∀ req : HttpRequest, HttpRequest.parse raw = some req →
      req.method = String.mk ((requestTokens raw).headD []) ∧
      req.path = String.mk ((requestTokens raw).getD 1 []) := by
  have hne := rustLines_ne_nil raw
  constructor
  · rw [parse_eq]
    by_cases hlt : (requestTokens raw).length < 2
    · simp [hlt]
    · simp [hlt, hne]
  · intro req h
    rw [parse_eq] at h
    by_cases hlt : (requestTokens raw).length < 2
    · rw [if_pos hlt] at h
      exact absurd h (by simp)
    · rw [if_neg hlt] at h
      simp only [Option.some.injEq] at h
      subst h
      exact ⟨rfl, rfl⟩

/-- Witness for C6: a concrete request line with an extra HTTP-version
token parses into its first two tokens. -/
theorem c6_parse_request_line_witness :
    ({ method := "GET", path := "/a", headers := [], body := [] } : HttpRequest).method =
      String.mk ((requestTokens (strBytes "GET /a HTTP/1.1\r\n")).headD []) ∧
    ({ method := "GET", path := "/a", headers := [], body := [] } : HttpRequest).path =
      String.mk ((requestTokens (strBytes "GET /a HTTP/1.1\r\n")).getD 1 []) :=
  (c6_parse_request_line (strBytes "GET /a HTTP/1.1\r\n")).2
    { method := "GET", path := "/a", headers := [], body := [] } (by decide)

/-- Claim C8: the parsed header sequence consumes lines from line 1 until
an empty line or end of input; each line is split at the first occurrence
of ": " into a pair (splitOnce finds exactly the first occurrence, and
returns none precisely when the separator does not occur, such lines being
skipped silently); duplicates and order are preserved. -/
theorem c8_parse_headers (raw : List Nat) (req : HttpRequest)
    (h : HttpRequest.parse raw = some req) :
    req.headers =
      (((rustLines raw).drop 1).takeWhile (fun l => !l.isEmpty)).filterMap
        (fun l => (splitOnce l).map (fun p => (String.mk p.1, String.mk p.2))) ∧
    (∀ l a b : List Char, splitOnce l = some (a, b) →
      l = a ++ ':' :: ' ' :: b ∧ ∀ x y : List Char, a ≠ x ++ ':' :: ' ' :: y) ∧
    (∀ l : List Char, splitOnce l = none →
      ∀ x y : List Char, l ≠ x ++ ':' :: ' ' :: y) := by
  refine ⟨?_, fun l a b hs => splitOnce_some l a b hs, fun l hn => splitOnce_none l hn⟩
  rw [parse_eq] at h
  by_cases hlt : (requestTokens raw).length < 2
  · rw [if_pos hlt] at h
    exact absurd h (by simp)
  · rw [if_neg hlt] at h
    simp only [Option.some.injEq] at h
    subst h
    exact headerLoop_fst ((rustLines raw).drop 1)

/-- Witness for C8: a concrete buffer with a duplicate header key, a
separator-free junk line, and a value containing a second ": ". -/
theorem c8_parse_headers_witness :
    ({ method := "GET", path := "/", headers := [("A", "1"), ("A", "2: 3")],
        body := [] } : HttpRequest).headers =
      (((rustLines (strBytes "GET / X\r\nA: 1\r\njunk\r\nA: 2: 3\r\n\r\n")).drop 1).takeWhile
          (fun l => !l.isEmpty)).filterMap
        (fun l => (splitOnce l).map (fun p => (String.mk p.1, String.mk p.2))) :=
  (c8_parse_headers (strBytes "GET / X\r\nA: 1\r\njunk\r\nA: 2: 3\r\n\r\n")
    { method := "GET", path := "/", headers := [("A", "1"), ("A", "2: 3")], body := [] }
    (by decide)).1

/-- Claim C9: the connection handler writes nothing at all when parsing
fails (silent drop, no 400), and writes exactly the built response of the
dispatched request when parsing succeeds. -/
theorem c9_silent_drop (raw : List Nat) :
    (HttpRequest.parse raw = none → handle_client raw = none) ∧
    ∀ req : HttpRequest, HttpRequest.parse raw = some req →
      handle_client raw = some ((dispatch req).build) := by
  constructor
  · intro h
    simp [handle_client, h]
  · intro req h
    simp [handle_client, h]

/-- Witness for C9: the empty buffer fails to parse and nothing is
written; a well-formed GET / request gets its built response written. -/
theorem c9_silent_drop_witness :
    handle_client [] = none ∧
    handle_client (strBytes "GET / HTTP/1.1\r\n\r\n") =
      some ((dispatch { method := "GET", path := "/", headers := [], body := [] }).build) :=
  ⟨(c9_silent_drop []).1 (by decide),
   (c9_silent_drop (strBytes "GET / HTTP/1.1\r\n\r\n")).2
     { method := "GET", path := "/", headers := [], body := [] } (by decide)⟩

/-- Claim C10: parse is total by construction (it is a Lean function on
arbitrary byte lists); the CRLF split always yields at least one line, so
the zero-lines failure branch is unreachable - a parse failure can only
come from the token check on line 0 - and the index arithmetic
lines.length - 1 never underflows. -/
theorem c10_parse_total (raw : List Nat) :
    rustLines raw ≠ [] ∧
    (rustLines raw).length - 1 + 1 = (rustLines raw).length ∧
    (HttpRequest.parse raw = none → (requestTokens raw).length < 2) := by
  have hne := rustLines_ne_nil raw
  refine ⟨hne, ?_, ?_⟩
  · have hlen : 1 ≤ (rustLines raw).length := by
      cases hl : rustLines raw with
      | nil => exact absurd hl hne
      | cons a t => simp
    omega
  · intro h
    rw [parse_eq] at h
    by_cases hlt : (requestTokens raw).length < 2
    · exact hlt
    · rw [if_neg hlt] at h
      exact absurd h (by simp)

/-- Witness for C10: the empty buffer (one empty line, zero tokens) fails
only through the token check. -/
theorem c10_parse_total_witness : (requestTokens []).length < 2 :=
  (c10_parse_total []).2.2 (by decide)
